import Mathlib

/-!
Shallow embedding of the offline-first submission pipeline of the
compliance-hub app, together with the derived-classification logic of two
form modules.  Embedded from:
  * `src/lib/offlineDb.ts`     — the durable local store (IndexedDB wrapper);
  * `src/hooks/useOfflineSync.ts` — the sync engine (`syncQueue`,
    `submitWithOfflineSupport`, the `pendingCount` React state);
  * `src/components/modules/CashActionModule.tsx` — `calculateSeverity`;
  * `src/components/modules/InventoryActionModule.tsx` — checklist gating.

Modelling conventions:
  * JavaScript values that flow through the queue and cache are modelled by
    `JsValue`, with JS truthiness (`null`, `false`, `0`, `""` are falsy).
  * JS numbers are modelled by `ℚ`; none of the embedded comparisons are
    sensitive to binary floating-point rounding.
  * `crypto.randomUUID()` is modelled by a fresh-id counter (`nextId`): the
    property it provides — a fresh identifier never equal to an id already
    in the store — is captured by freshness, and ids are never reused.
  * `Date.now()` is an explicit `now : Nat` argument at each call site.
  * The single-threaded async runtime is modelled by atomic state-passing
    functions; the synchronous prefix of `syncQueue` (the re-entrancy guard
    plus flag set, which runs without an intervening `await`) is split off
    as `drainBegin` so that a trigger arriving while a pass is in flight is
    representable.
-/

/-- A JavaScript runtime value, as far as the queue/cache code observes it. -/
inductive JsValue where
  | vNull : JsValue
  | vBool : Bool → JsValue
  | vNum : ℚ → JsValue
  | vStr : String → JsValue
  | vObj : List (String × JsValue) → JsValue
deriving Repr

/-- JS truthiness: `null`, `false`, `0` and `""` are falsy; objects are
always truthy. -/
def JsValue.truthy : JsValue → Bool
  | .vNull => false
  | .vBool b => b
  | .vNum q => q != 0
  | .vStr s => s != ""
  | .vObj _ => true

/-- `OfflineQueueItem` from `offlineDb.ts`: one pending write. -/
structure OfflineQueueItem where
  id : Nat
  table : String
  data : JsValue
  timestamp : Nat
deriving Repr

/-- A row of the `cachedData` object store (keyPath `key`). -/
structure CachedEntry where
  key : String
  table : String
  data : JsValue
  timestamp : Nat
deriving Repr

/-- The IndexedDB database `ComplianceHubOffline`: the `offlineQueue` and
`cachedData` object stores, plus the fresh-id source modelling
`crypto.randomUUID()`. -/
structure OfflineDb where
  queue : List OfflineQueueItem
  cache : List CachedEntry
  nextId : Nat
deriving Repr

def OfflineDb.empty : OfflineDb := ⟨[], [], 0⟩

/-- `addToOfflineQueue(table, data)`: allocate a fresh id, persist the item
with a `Date.now()` timestamp, return the id. -/
def addToOfflineQueue (db : OfflineDb) (table : String) (data : JsValue)
    (now : Nat) : OfflineDb × Nat :=
  let id := db.nextId
  let item : OfflineQueueItem := ⟨id, table, data, now⟩
  ({ db with queue := db.queue ++ [item], nextId := db.nextId + 1 }, id)

/-- `getOfflineQueue()`: `store.getAll()` on `offlineQueue`. -/
def getOfflineQueue (db : OfflineDb) : List OfflineQueueItem :=
  db.queue

/-- `removeFromOfflineQueue(id)`: `store.delete(id)` — removes the record
with that key; deleting an absent key is a no-op. -/
def removeFromOfflineQueue (db : OfflineDb) (id : Nat) : OfflineDb :=
  { db with queue := db.queue.filter (fun item => item.id != id) }

/-- `cacheData(key, table, data)`: `store.put` on `cachedData` — upsert by
key. -/
def cacheData (db : OfflineDb) (key table : String) (data : JsValue)
    (now : Nat) : OfflineDb :=
  { db with
      cache := db.cache.filter (fun e => e.key != key) ++ [⟨key, table, data, now⟩] }

/-- `getCachedData(key)`: `store.get(key)`, resolved as
`request.result?.data || null` — a present entry whose `data` is falsy
resolves to `null`, exactly like an absent entry. -/
def getCachedData (db : OfflineDb) (key : String) : Option JsValue :=
  match db.cache.find? (fun e => e.key == key) with
  | some entry => if entry.data.truthy then some entry.data else none
  | none => none

/-- `clearCache()`: clears both object stores in one transaction. -/
def clearCache (db : OfflineDb) : OfflineDb :=
  { db with queue := [], cache := [] }

/-- Result of `submitWithOfflineSupport`: `{ success, offline }`.  The spec
reads `persistedRemotely` for `!offline`. -/
structure SubmitResult where
  success : Bool
  offline : Bool
deriving Repr, DecidableEq

/-- State held by one `useOfflineSync` hook instance: the durable store, the
`pendingCount` React state, the `isSyncingRef` flag, and the connectivity
boolean from `useOnlineStatus`. -/
structure EngineState where
  db : OfflineDb
  pendingCount : Nat
  isSyncing : Bool
  isOnline : Bool
deriving Repr

/-- The engine's view of a remote insert: `supabase.from(t).insert(d)`
either confirms (`true`) or fails (`false`); a thrown exception and a
returned error object are handled identically by the embedded code. -/
def RemoteOracle : Type := String → JsValue → Bool

/-- One remote attempt recorded in a drain pass's trace. -/
structure RemoteAttempt where
  table : String
  data : JsValue
deriving Repr

/-- The synchronous prefix of `syncQueue` — everything before the first
`await`: the guard `if (!isOnline || isSyncingRef.current) return;` and the
flag set.  Returns the state and whether a pass was started. -/
def drainBegin (s : EngineState) : EngineState × Bool :=
  if !s.isOnline || s.isSyncing then (s, false)
  else ({ s with isSyncing := true }, true)

/-- The per-item body of the drain loop: attempt the remote insert; on
success dequeue the item and decrement `pendingCount` via
`Math.max(0, prev - 1)` (Nat subtraction); on error or exception leave
everything in place and continue. -/
def processItem (remote : RemoteOracle) (s : EngineState)
    (item : OfflineQueueItem) : EngineState :=
  if remote item.table item.data then
    { s with db := removeFromOfflineQueue s.db item.id,
             pendingCount := s.pendingCount - 1 }
  else s

/-- The remainder of `syncQueue` after the flag is set: snapshot the queue,
set `pendingCount` to the snapshot length, process each snapshot item, and
clear the flag in the `finally` block.  The returned trace lists every
remote insert attempted. -/
def drainFinish (remote : RemoteOracle) (s : EngineState) :
    EngineState × List RemoteAttempt :=
  let snapshot := getOfflineQueue s.db
  let s1 := { s with pendingCount := snapshot.length }
  let s2 := snapshot.foldl (processItem remote) s1
  ({ s2 with isSyncing := false },
   snapshot.map (fun item => ⟨item.table, item.data⟩))

/-- `syncQueue` from `useOfflineSync.ts`: one drain trigger, run to
completion of the pass (or returning immediately when the guard fires). -/
def syncQueue (remote : RemoteOracle) (s : EngineState) :
    EngineState × List RemoteAttempt :=
  let (s1, started) := drainBegin s
  if started then drainFinish remote s1 else (s1, [])

/-- `submitWithOfflineSupport(table, data)`: online → direct remote insert,
success returns `{success:true, offline:false}`; failure (error or throw)
and the offline branch both enqueue, increment `pendingCount`, and return
`{success:true, offline:true}`. -/
def submitWithOfflineSupport (remote : RemoteOracle) (s : EngineState)
    (table : String) (data : JsValue) (now : Nat) :
    EngineState × SubmitResult :=
  if s.isOnline then
    if remote table data then
      (s, ⟨true, false⟩)
    else
      let db' := (addToOfflineQueue s.db table data now).1
      ({ s with db := db', pendingCount := s.pendingCount + 1 }, ⟨true, true⟩)
  else
    let db' := (addToOfflineQueue s.db table data now).1
    ({ s with db := db', pendingCount := s.pendingCount + 1 }, ⟨true, true⟩)

/-- The operations a client of the pipeline can perform on a live engine
state: a form submission, a drain trigger, `clearCache()` from
`offlineDb.ts`, and a connectivity transition. -/
inductive EngineOp where
  | submit (table : String) (data : JsValue) (now : Nat) : EngineOp
  | drain : EngineOp
  | clearAll : EngineOp
  | setOnline (b : Bool) : EngineOp
deriving Repr

/-- Apply one operation.  `clearAll` goes straight to the store, as
`clearCache()` does — the hook's `pendingCount` state is not told. -/
def applyOp (remote : RemoteOracle) (s : EngineState) : EngineOp → EngineState
  | .submit table data now => (submitWithOfflineSupport remote s table data now).1
  | .drain => (syncQueue remote s).1
  | .clearAll => { s with db := clearCache s.db }
  | .setOnline b => { s with isOnline := b }

/-- Run a sequence of operations. -/
def runOps (remote : RemoteOracle) (s : EngineState) (ops : List EngineOp) :
    EngineState :=
  ops.foldl (applyOp remote) s

/-- A freshly mounted hook over an empty store: `useState(0)` for the count,
`useRef(false)` for the flag. -/
def initialState (online : Bool) : EngineState :=
  ⟨OfflineDb.empty, 0, false, online⟩

/-- The `Severity` union type of `CashActionModule.tsx`. -/
inductive Severity where
  | low
  | medium
  | high
  | critical
deriving Repr, DecidableEq

/-- `calculateSeverity` from `CashActionModule.tsx`:
`Math.abs(variance)` against the thresholds 100 / 50 / 20. -/
def calculateSeverity (variance : ℚ) : Severity :=
  let absVariance := |variance|
  if absVariance ≥ 100 then .critical
  else if absVariance ≥ 50 then .high
  else if absVariance ≥ 20 then .medium
  else .low

/-- `calculateVariance` from `CashActionModule.tsx`: `actual - expected`. -/
def calculateVariance (expected actual : ℚ) : ℚ :=
  actual - expected

/-- `action_type` of `InventoryActionModule.tsx` (`StoreActionModule`). -/
inductive InventoryActionType where
  | opening
  | closing
  | maintenance
deriving Repr, DecidableEq

/-- `ChecklistItem` from `lib/supabase.ts`, as the gating logic reads it. -/
structure ChecklistItem where
  id : Nat
  label : String
  completed : Bool
deriving Repr

/-- `completedCount` as computed at the render site (line 624):
`checklistItems.filter((i) => i.completed).length`. -/
def completedCount (items : List ChecklistItem) : Nat :=
  (items.filter (fun i => i.completed)).length

/-- The submit button's `disabled` expression (line 942) with the transient
`submitting` flag false:
`actionType !== 'maintenance' && completedCount < totalCount`.
The submission can be finalized exactly when this is `false`. -/
def submitDisabled (actionType : InventoryActionType)
    (items : List ChecklistItem) : Bool :=
  actionType != .maintenance && completedCount items < items.length

/-- Fold of `submitWithOfflineSupport` over a list of submissions
`(table, data, now)`, threading the hook state. -/
def runSubmits (remote : RemoteOracle) (s : EngineState)
    (subs : List (String × JsValue × Nat)) : EngineState :=
  subs.foldl (fun st x => (submitWithOfflineSupport remote st x.1 x.2.1 x.2.2).1) s

/-- The engine's health invariant: the hook's `pendingCount` agrees with the
store, no pass is mid-flight, and queue ids are fresh and pairwise
distinct (what `crypto.randomUUID()` provides). -/
def EngineInv (s : EngineState) : Prop :=
  s.pendingCount = s.db.queue.length ∧
  s.isSyncing = false ∧
  (∀ i ∈ s.db.queue, i.id < s.db.nextId) ∧
  (s.db.queue.map (fun i => i.id)).Nodup

/-! ## Severity classification (CashActionModule) -/

/-- C6: for every cash-shortage variance `v`, the computed severity is
`critical` iff `|v| ≥ 100`, `high` iff `50 ≤ |v| < 100`, `medium` iff
`20 ≤ |v| < 50`, and `low` iff `|v| < 20` — the tiers are inclusive on
their lower bounds and partition the non-negative range with no gaps or
overlaps. -/
theorem calculateSeverity_tier_partition (v : ℚ) :
    (calculateSeverity v = Severity.critical ↔ 100 ≤ |v|) ∧
    (calculateSeverity v = Severity.high ↔ 50 ≤ |v| ∧ |v| < 100) ∧
    (calculateSeverity v = Severity.medium ↔ 20 ≤ |v| ∧ |v| < 50) ∧
    (calculateSeverity v = Severity.low ↔ |v| < 20) := by
  unfold calculateSeverity
  dsimp only
  split_ifs with h1 h2 h3 <;>
    refine ⟨?_, ?_, ?_, ?_⟩ <;> simp <;> intros <;>
      first
        | linarith
        | (constructor <;> linarith)

/-- C7 counterexample: the spec's boundary table says variance `5.00` maps
to `medium`, but the code computes `low` (the `medium` tier only starts at
`20`). -/
theorem severity_table_counterexample :
    calculateSeverity 5.00 = Severity.low ∧ Severity.low ≠ Severity.medium := by
  constructor
  · unfold calculateSeverity
    norm_num [abs_of_nonneg]
  · simp

/-- C7 amended: the severities the code computes at the listed boundary
variances are `4.99 → low`, `5.00 → low`, `19.99 → low`, `20.00 → medium`,
`49.99 → medium`, `50.00 → high`, `99.99 → high`. -/
theorem severity_boundary_values :
    calculateSeverity 4.99 = Severity.low ∧
    calculateSeverity 5.00 = Severity.low ∧
    calculateSeverity 19.99 = Severity.low ∧
    calculateSeverity 20.00 = Severity.medium ∧
    calculateSeverity 49.99 = Severity.medium ∧
    calculateSeverity 50.00 = Severity.high ∧
    calculateSeverity 99.99 = Severity.high := by
  refine ⟨?_, ?_, ?_, ?_, ?_, ?_, ?_⟩ <;>
    (unfold calculateSeverity; norm_num [abs_of_nonneg])

/-! ## Checklist gating (InventoryActionModule) -/

/-- C9: an opening or closing checklist submission can be finalized (the
submit button is enabled) iff every checklist item's `completed` flag is
true; a maintenance request is never gated on the checklist. -/
theorem checklist_gating (items : List ChecklistItem) :
    (submitDisabled .opening items = false ↔ ∀ i ∈ items, i.completed = true) ∧
    (submitDisabled .closing items = false ↔ ∀ i ∈ items, i.completed = true) ∧
    submitDisabled .maintenance items = false := by
  refine ⟨?_, ?_, by simp [submitDisabled]⟩ <;>
  · unfold submitDisabled completedCount
    simp only [Bool.and_eq_false_iff]
    constructor
    · intro h
      rcases h with h | h
      · simp at h
      · have hlen : (items.filter (fun i => i.completed)).length = items.length := by
          have hle := items.length_filter_le (fun i => i.completed)
          simp at h
          omega
        have heq : items.filter (fun i => i.completed) = items :=
          (List.filter_sublist items).eq_of_length hlen
        intro i hi
        simpa using (List.filter_eq_self.mp heq) i hi
    · intro h
      right
      have heq : items.filter (fun i => i.completed) = items :=
        List.filter_eq_self.mpr (fun a ha => by simpa using h a ha)
      simp [heq]

/-! ## Durable local store (offlineDb) -/

/-- C10: after `cacheData(k, c, v)`, `getCachedData(k)` returns `v` exactly
when `v` is truthy; for a falsy `v` (`null`, `false`, `0`, `""`) it returns
`none`, even though an entry for `k` with data `v` is present in the
store. -/
theorem cache_truthy_roundtrip (db : OfflineDb) (k c : String) (v : JsValue)
    (now : Nat) :
    getCachedData (cacheData db k c v now) k =
      (if v.truthy then some v else none) ∧
    ∃ e ∈ (cacheData db k c v now).cache, e.key = k ∧ e.data = v := by
  have hnone :
      (db.cache.filter (fun e => e.key != k)).find? (fun e => e.key == k) =
        none := by
    rw [List.find?_eq_none]
    intro e he
    have hne := (List.mem_filter.mp he).2
    simpa using hne
  constructor
  · unfold getCachedData cacheData
    rw [List.find?_append, hnone]
    simp
  · exact ⟨⟨k, c, v, now⟩, by unfold cacheData; simp, rfl, rfl⟩

/-- C8: starting from an empty queue, `addToOfflineQueue t p` makes
`getOfflineQueue` return exactly one item, with that id, table `t` and data
`p`; after `removeFromOfflineQueue` of that id, no item with the id
remains. -/
theorem queue_roundtrip (db : OfflineDb) (t : String) (p : JsValue) (now : Nat)
    (h : getOfflineQueue db = []) :
    getOfflineQueue (addToOfflineQueue db t p now).1 =
      [{ id := (addToOfflineQueue db t p now).2, table := t, data := p,
         timestamp := now }] ∧
    ∀ i ∈ getOfflineQueue
        (removeFromOfflineQueue (addToOfflineQueue db t p now).1
          (addToOfflineQueue db t p now).2),
      i.id ≠ (addToOfflineQueue db t p now).2 := by
  unfold getOfflineQueue at h
  unfold getOfflineQueue addToOfflineQueue removeFromOfflineQueue
  simp [h]

/-- Witness for `queue_roundtrip` at a concrete empty store. -/
theorem queue_roundtrip_witness :
    getOfflineQueue OfflineDb.empty = [] ∧
    (getOfflineQueue (addToOfflineQueue OfflineDb.empty "incidents" (.vStr "p") 7).1 =
      [{ id := (addToOfflineQueue OfflineDb.empty "incidents" (.vStr "p") 7).2,
         table := "incidents", data := .vStr "p", timestamp := 7 }] ∧
    ∀ i ∈ getOfflineQueue
        (removeFromOfflineQueue
          (addToOfflineQueue OfflineDb.empty "incidents" (.vStr "p") 7).1
          (addToOfflineQueue OfflineDb.empty "incidents" (.vStr "p") 7).2),
      i.id ≠ (addToOfflineQueue OfflineDb.empty "incidents" (.vStr "p") 7).2) :=
  ⟨rfl, queue_roundtrip OfflineDb.empty "incidents" (.vStr "p") 7 rfl⟩

/-! ## Sync engine: submit -/

/-- C4: online submit whose remote insert fails is absorbed — the call
still returns `{success:true, offline:true}` (i.e. accepted, not persisted
remotely), the record is appended to the durable queue, and `pendingCount`
increments by exactly one. -/
theorem submit_online_fallback (remote : RemoteOracle) (s : EngineState)
    (t : String) (d : JsValue) (now : Nat)
    (hon : s.isOnline = true) (hrem : remote t d = false) :
    (submitWithOfflineSupport remote s t d now).2 =
      { success := true, offline := true } ∧
    (submitWithOfflineSupport remote s t d now).1.pendingCount =
      s.pendingCount + 1 ∧
    (submitWithOfflineSupport remote s t d now).1.db.queue =
      s.db.queue ++
        [{ id := s.db.nextId, table := t, data := d, timestamp := now }] := by
  unfold submitWithOfflineSupport addToOfflineQueue
  simp [hon, hrem]

/-- Witness for `submit_online_fallback`: a concrete online state with an
always-failing remote. -/
theorem submit_online_fallback_witness :
    (initialState true).isOnline = true ∧
    (fun (_ : String) (_ : JsValue) => false) "cash_actions" (.vStr "r") = false ∧
    ((submitWithOfflineSupport (fun _ _ => false) (initialState true)
        "cash_actions" (.vStr "r") 3).2 =
      { success := true, offline := true } ∧
    (submitWithOfflineSupport (fun _ _ => false) (initialState true)
        "cash_actions" (.vStr "r") 3).1.pendingCount =
      (initialState true).pendingCount + 1 ∧
    (submitWithOfflineSupport (fun _ _ => false) (initialState true)
        "cash_actions" (.vStr "r") 3).1.db.queue =
      (initialState true).db.queue ++
        [{ id := (initialState true).db.nextId, table := "cash_actions",
           data := .vStr "r", timestamp := 3 }]) :=
  ⟨rfl, rfl,
    submit_online_fallback (fun _ _ => false) (initialState true)
      "cash_actions" (.vStr "r") 3 rfl rfl⟩

/-! ## Sync engine: drain -/

/-- C1: at most one drain pass is in flight.  If `syncQueue` is triggered
while a pass is in flight (`isSyncingRef.current` true), the call returns
with the state untouched and no queue read or remote insert attempted; and
a second trigger arriving right after a first one started a pass (i.e.
between the flag set and the first await) is a no-op, so two rapid
triggers start exactly one pass. -/
theorem drain_single_flight (remote : RemoteOracle) (s t : EngineState)
    (hs : s.isSyncing = true) (ht : (drainBegin t).2 = true) :
    syncQueue remote s = (s, []) ∧
    drainBegin (drainBegin t).1 = ((drainBegin t).1, false) := by
  constructor
  · unfold syncQueue drainBegin
    simp [hs]
  · unfold drainBegin at ht ⊢
    by_cases hg : (!t.isOnline || t.isSyncing) = true
    · simp [hg] at ht
    · simp only [hg] at ht ⊢
      simp at hg
      simp [hg]

/-- Witness for `drain_single_flight`: a mid-flight state and a fresh
online state. -/
theorem drain_single_flight_witness :
    (EngineState.mk OfflineDb.empty 0 true true).isSyncing = true ∧
    (drainBegin (initialState true)).2 = true ∧
    (syncQueue (fun _ _ => true) (EngineState.mk OfflineDb.empty 0 true true) =
      (EngineState.mk OfflineDb.empty 0 true true, []) ∧
    drainBegin (drainBegin (initialState true)).1 =
      ((drainBegin (initialState true)).1, false)) :=
  ⟨rfl, rfl,
    drain_single_flight (fun _ _ => true)
      (EngineState.mk OfflineDb.empty 0 true true) (initialState true) rfl rfl⟩

/-- C2: partial-failure drain.  With exactly three queued items of which
only the second fails its remote insert, one `syncQueue` pass dequeues the
first and third, leaves the second in place, finishes the pass (back to
not-syncing), and ends with `pendingCount = 1`. -/
theorem drain_partial_failure (remote : RemoteOracle) (s : EngineState)
    (a b c : OfflineQueueItem)
    (hq : getOfflineQueue s.db = [a, b, c])
    (hidle : s.isSyncing = false) (hon : s.isOnline = true)
    (hab : a.id ≠ b.id) (hbc : b.id ≠ c.id) (hac : a.id ≠ c.id)
    (ha : remote a.table a.data = true)
    (hb : remote b.table b.data = false)
    (hc : remote c.table c.data = true) :
    getOfflineQueue (syncQueue remote s).1.db = [b] ∧
    (syncQueue remote s).1.pendingCount = 1 ∧
    (syncQueue remote s).1.isSyncing = false := by
  have hba : (b.id != a.id) = true := bne_iff_ne.mpr (Ne.symm hab)
  have hca : (c.id != a.id) = true := bne_iff_ne.mpr (Ne.symm hac)
  have hbc' : (b.id != c.id) = true := bne_iff_ne.mpr hbc
  unfold getOfflineQueue at hq ⊢
  unfold syncQueue drainBegin drainFinish getOfflineQueue processItem
    removeFromOfflineQueue
  simp [hidle, hon, hq, ha, hb, hc, List.filter, hba, hca, hbc']

/-- Witness for `drain_partial_failure`: three concrete items, the remote
failing exactly on the second item's table. -/
theorem drain_partial_failure_witness :
    getOfflineQueue (OfflineDb.mk
        [OfflineQueueItem.mk 0 "ta" (.vStr "1") 0,
         OfflineQueueItem.mk 1 "tb" (.vStr "2") 0,
         OfflineQueueItem.mk 2 "tc" (.vStr "3") 0] [] 3) =
      [OfflineQueueItem.mk 0 "ta" (.vStr "1") 0,
       OfflineQueueItem.mk 1 "tb" (.vStr "2") 0,
       OfflineQueueItem.mk 2 "tc" (.vStr "3") 0] ∧
    (fun (tname : String) (_ : JsValue) => tname != "tb") "ta" (.vStr "1") = true ∧
    (fun (tname : String) (_ : JsValue) => tname != "tb") "tb" (.vStr "2") = false ∧
    (fun (tname : String) (_ : JsValue) => tname != "tb") "tc" (.vStr "3") = true ∧
    (getOfflineQueue (syncQueue (fun tname _ => tname != "tb")
        (EngineState.mk (OfflineDb.mk
          [OfflineQueueItem.mk 0 "ta" (.vStr "1") 0,
           OfflineQueueItem.mk 1 "tb" (.vStr "2") 0,
           OfflineQueueItem.mk 2 "tc" (.vStr "3") 0] [] 3) 0 false true)).1.db =
      [OfflineQueueItem.mk 1 "tb" (.vStr "2") 0] ∧
    (syncQueue (fun tname _ => tname != "tb")
        (EngineState.mk (OfflineDb.mk
          [OfflineQueueItem.mk 0 "ta" (.vStr "1") 0,
           OfflineQueueItem.mk 1 "tb" (.vStr "2") 0,
           OfflineQueueItem.mk 2 "tc" (.vStr "3") 0] [] 3) 0 false true)).1.pendingCount = 1 ∧
    (syncQueue (fun tname _ => tname != "tb")
        (EngineState.mk (OfflineDb.mk
          [OfflineQueueItem.mk 0 "ta" (.vStr "1") 0,
           OfflineQueueItem.mk 1 "tb" (.vStr "2") 0,
           OfflineQueueItem.mk 2 "tc" (.vStr "3") 0] [] 3) 0 false true)).1.isSyncing = false) :=
  ⟨rfl, rfl, rfl, rfl,
    drain_partial_failure (fun tname _ => tname != "tb")
      (EngineState.mk (OfflineDb.mk
        [OfflineQueueItem.mk 0 "ta" (.vStr "1") 0,
         OfflineQueueItem.mk 1 "tb" (.vStr "2") 0,
         OfflineQueueItem.mk 2 "tc" (.vStr "3") 0] [] 3) 0 false true)
      (OfflineQueueItem.mk 0 "ta" (.vStr "1") 0)
      (OfflineQueueItem.mk 1 "tb" (.vStr "2") 0)
      (OfflineQueueItem.mk 2 "tc" (.vStr "3") 0)
      rfl rfl rfl (by decide) (by decide) (by decide) rfl rfl rfl⟩

/-- Helper: while offline, every submit takes the enqueue branch — the
hook state after a list of submits has the count raised by the number of
submits and the queue extended by exactly those writes, in order. -/
theorem runSubmits_offline (remote : RemoteOracle) :
    ∀ (subs : List (String × JsValue × Nat)) (s : EngineState),
    s.isOnline = false →
    (runSubmits remote s subs).isOnline = false ∧
    (runSubmits remote s subs).pendingCount = s.pendingCount + subs.length ∧
    (runSubmits remote s subs).db.queue.map (fun i => (i.table, i.data)) =
      s.db.queue.map (fun i => (i.table, i.data)) ++
        subs.map (fun x => (x.1, x.2.1)) := by
  intro subs
  induction subs with
  | nil =>
    intro s hoff
    exact ⟨hoff, rfl, by simp [runSubmits]⟩
  | cons x rest ih =>
    intro s hoff
    have hstep : runSubmits remote s (x :: rest) =
        runSubmits remote
          ((submitWithOfflineSupport remote s x.1 x.2.1 x.2.2).1) rest := rfl
    have hsub : (submitWithOfflineSupport remote s x.1 x.2.1 x.2.2).1 =
        { s with db := (addToOfflineQueue s.db x.1 x.2.1 x.2.2).1,
                 pendingCount := s.pendingCount + 1 } := by
      unfold submitWithOfflineSupport
      simp [hoff]
    rw [hstep, hsub]
    obtain ⟨h1, h2, h3⟩ := ih
      { s with db := (addToOfflineQueue s.db x.1 x.2.1 x.2.2).1,
               pendingCount := s.pendingCount + 1 } hoff
    refine ⟨h1, ?_, ?_⟩
    · rw [h2]
      simp
      omega
    · rw [h3]
      unfold addToOfflineQueue
      simp

/-- C5: starting from the fresh hook state over an empty store while
offline, after any sequence of submits `pendingCount` equals the number of
submits, and the queue holds exactly the submitted `(table, data)` pairs in
order — no write lost or double-counted. -/
theorem offline_submits_pendingCount (remote : RemoteOracle)
    (subs : List (String × JsValue × Nat)) :
    (runSubmits remote (initialState false) subs).pendingCount = subs.length ∧
    (getOfflineQueue (runSubmits remote (initialState false) subs).db).map
      (fun i => (i.table, i.data)) = subs.map (fun x => (x.1, x.2.1)) := by
  obtain ⟨-, h2, h3⟩ := runSubmits_offline remote subs (initialState false) rfl
  refine ⟨by simpa [initialState] using h2, ?_⟩
  unfold getOfflineQueue
  simpa [initialState, OfflineDb.empty] using h3

/-! ## Sync engine: the pending-count invariant -/

/-- Helper: deleting by the id of a present item from a queue with
pairwise-distinct ids removes exactly one element. -/
theorem length_filter_ne_of_mem (q : List OfflineQueueItem)
    (x : OfflineQueueItem) (hmem : x ∈ q)
    (hnd : (q.map (fun i => i.id)).Nodup) :
    (q.filter (fun j => j.id != x.id)).length + 1 = q.length := by
  induction q with
  | nil => cases hmem
  | cons h tl ih =>
    rw [List.map_cons, List.nodup_cons] at hnd
    by_cases hh : h.id = x.id
    · have htl : tl.filter (fun j => j.id != x.id) = tl := by
        apply List.filter_eq_self.mpr
        intro a ha
        simp only [bne_iff_ne, ne_eq, decide_eq_true_eq]
        intro hax
        apply hnd.1
        rw [List.mem_map]
        exact ⟨a, ha, by rw [hax, hh]⟩
      have hfalse : (h.id != x.id) = false := by simp [hh]
      simp [List.filter_cons, hfalse, htl]
    · have hxtl : x ∈ tl := by
        rcases List.mem_cons.mp hmem with rfl | hx
        · exact absurd rfl hh
        · exact hx
      have hrec := ih hxtl hnd.2
      have htrue : (h.id != x.id) = true := bne_iff_ne.mpr hh
      simp only [List.filter_cons, htrue, if_true, List.length_cons]
      omega

/-- Helper: the drain loop keeps `pendingCount` equal to the live queue
length, keeps queue ids pairwise distinct, only ever removes items, and
never touches cache, id source, flag or connectivity — provided the items
still to process all sit in the queue with distinct ids. -/
theorem drain_fold_inv (remote : RemoteOracle) :
    ∀ (r : List OfflineQueueItem) (s : EngineState),
    s.pendingCount = s.db.queue.length →
    (s.db.queue.map (fun i => i.id)).Nodup →
    (∀ i ∈ r, i ∈ s.db.queue) →
    (r.map (fun i => i.id)).Nodup →
    (r.foldl (processItem remote) s).pendingCount =
        (r.foldl (processItem remote) s).db.queue.length ∧
    ((r.foldl (processItem remote) s).db.queue.map (fun i => i.id)).Nodup ∧
    (∀ i ∈ (r.foldl (processItem remote) s).db.queue, i ∈ s.db.queue) ∧
    (r.foldl (processItem remote) s).db.nextId = s.db.nextId ∧
    (r.foldl (processItem remote) s).db.cache = s.db.cache ∧
    (r.foldl (processItem remote) s).isSyncing = s.isSyncing ∧
    (r.foldl (processItem remote) s).isOnline = s.isOnline := by
  intro r
  induction r with
  | nil =>
    intro s h1 h2 _ _
    exact ⟨h1, h2, fun i hi => hi, rfl, rfl, rfl, rfl⟩
  | cons x rest ih =>
    intro s h1 h2 hsub hndr
    rw [List.map_cons, List.nodup_cons] at hndr
    have hxq : x ∈ s.db.queue := hsub x (List.mem_cons_self x rest)
    rw [List.foldl_cons]
    by_cases hrem : remote x.table x.data
    · have hstep : processItem remote s x =
          { s with db := removeFromOfflineQueue s.db x.id,
                   pendingCount := s.pendingCount - 1 } := by
        unfold processItem
        simp [hrem]
      have hlen := length_filter_ne_of_mem s.db.queue x hxq h2
      rw [hstep]
      have hq1 : ({ s with db := removeFromOfflineQueue s.db x.id,
                           pendingCount := s.pendingCount - 1 }).db.queue =
          s.db.queue.filter (fun j => j.id != x.id) := rfl
      obtain ⟨g1, g2, g3, g4, g5, g6, g7⟩ := ih
        { s with db := removeFromOfflineQueue s.db x.id,
                 pendingCount := s.pendingCount - 1 }
        (by rw [hq1]; show s.pendingCount - 1 = _; omega)
        (by rw [hq1]; exact h2.sublist ((List.filter_sublist s.db.queue).map _))
        (by
          intro i hi
          rw [hq1, List.mem_filter]
          refine ⟨hsub i (List.mem_cons_of_mem _ hi), ?_⟩
          simp only [bne_iff_ne, ne_eq, decide_eq_true_eq]
          intro hix
          apply hndr.1
          rw [List.mem_map]
          exact ⟨i, hi, hix⟩)
        hndr.2
      refine ⟨g1, g2, ?_, g4, g5, g6, g7⟩
      intro i hi
      have := g3 i hi
      rw [hq1] at this
      exact (List.mem_filter.mp this).1
    · have hstep : processItem remote s x = s := by
        unfold processItem
        simp [hrem]
      rw [hstep]
      exact ih s h1 h2 (fun i hi => hsub i (List.mem_cons_of_mem _ hi)) hndr.2

/-- Helper: `syncQueue` when the guard fires (offline or already in
flight) returns state and trace unchanged. -/
theorem syncQueue_guard (remote : RemoteOracle) (s : EngineState)
    (hg : (!s.isOnline || s.isSyncing) = true) :
    syncQueue remote s = (s, []) := by
  unfold syncQueue drainBegin
  simp [hg]

/-- Helper: `syncQueue` when the guard passes runs one full pass with the
flag set. -/
theorem syncQueue_run (remote : RemoteOracle) (s : EngineState)
    (hg : (!s.isOnline || s.isSyncing) = false) :
    syncQueue remote s = drainFinish remote { s with isSyncing := true } := by
  unfold syncQueue drainBegin
  simp [hg]

/-- Helper: the first component of `drainFinish`, written out. -/
theorem drainFinish_fst (remote : RemoteOracle) (t : EngineState) :
    (drainFinish remote t).1 =
      { t.db.queue.foldl (processItem remote)
          { t with pendingCount := t.db.queue.length } with
        isSyncing := false } := rfl

/-- Helper: one drain trigger preserves the engine invariant. -/
theorem syncQueue_preserves_inv (remote : RemoteOracle) (s : EngineState)
    (h : EngineInv s) : EngineInv (syncQueue remote s).1 := by
  obtain ⟨h1, h2, h3, h4⟩ := h
  by_cases hg : (!s.isOnline || s.isSyncing) = true
  · rw [syncQueue_guard remote s hg]
    exact ⟨h1, h2, h3, h4⟩
  · rw [syncQueue_run remote s (by simpa using hg), drainFinish_fst]
    obtain ⟨g1, g2, g3, g4, g5, g6, g7⟩ := drain_fold_inv remote
      ({ s with isSyncing := true }).db.queue
      { { s with isSyncing := true } with
        pendingCount := ({ s with isSyncing := true }).db.queue.length }
      rfl h4 (fun i hi => hi) h4
    refine ⟨g1, rfl, ?_, g2⟩
    intro i hi
    have hlt : i.id < s.db.nextId := h3 i (g3 i hi)
    exact lt_of_lt_of_eq hlt g4.symm

/-- Helper: a submit preserves the engine invariant (the enqueue branch
appends a fresh-id item and bumps the count by one). -/
theorem submit_preserves_inv (remote : RemoteOracle) (s : EngineState)
    (t : String) (d : JsValue) (now : Nat)
    (h : EngineInv s) : EngineInv (submitWithOfflineSupport remote s t d now).1 := by
  obtain ⟨h1, h2, h3, h4⟩ := h
  have henq : EngineInv
      { s with db := (addToOfflineQueue s.db t d now).1,
               pendingCount := s.pendingCount + 1 } := by
    refine ⟨?_, h2, ?_, ?_⟩
    · show s.pendingCount + 1 = (s.db.queue ++ [OfflineQueueItem.mk s.db.nextId t d now]).length
      simp [h1]
    · intro i hi
      show i.id < s.db.nextId + 1
      rcases List.mem_append.mp hi with hold | hnew
      · exact Nat.lt_succ_of_lt (h3 i hold)
      · rw [List.mem_singleton.mp hnew]
        exact Nat.lt_succ_self _
    · show ((s.db.queue ++ [OfflineQueueItem.mk s.db.nextId t d now]).map (fun i => i.id)).Nodup
      rw [List.map_append, List.map_singleton, List.nodup_append]
      refine ⟨h4, List.nodup_singleton _, ?_⟩
      intro a ha hb
      rw [List.mem_singleton.mp hb] at ha
      obtain ⟨j, hj, hjid⟩ := List.mem_map.mp ha
      exact absurd hjid (Nat.ne_of_lt (h3 j hj))
  unfold submitWithOfflineSupport
  by_cases hon : s.isOnline = true
  · by_cases hrem : remote t d = true
    · simp [hon, hrem]
      exact ⟨h1, h2, h3, h4⟩
    · simp only [hon, if_true, hrem, if_false]
      exact henq
  · simp only [Bool.not_eq_true] at hon
    simp only [hon, Bool.false_eq_true, if_false]
    exact henq

/-- Helper: every operation except `clearAll` preserves the engine
invariant. -/
theorem applyOp_preserves_inv (remote : RemoteOracle) (s : EngineState)
    (op : EngineOp) (hop : op ≠ EngineOp.clearAll)
    (h : EngineInv s) : EngineInv (applyOp remote s op) := by
  cases op with
  | submit t d n => exact submit_preserves_inv remote s t d n h
  | drain => exact syncQueue_preserves_inv remote s h
  | clearAll => exact absurd rfl hop
  | setOnline b =>
    obtain ⟨h1, h2, h3, h4⟩ := h
    exact ⟨h1, h2, h3, h4⟩

/-- Helper: any `clearAll`-free operation sequence preserves the engine
invariant. -/
theorem runOps_preserves_inv (remote : RemoteOracle) :
    ∀ (ops : List EngineOp) (s : EngineState),
    EngineOp.clearAll ∉ ops → EngineInv s →
    EngineInv (runOps remote s ops) := by
  intro ops
  induction ops with
  | nil => intro s _ h; exact h
  | cons op rest ih =>
    intro s hmem h
    have hop : op ≠ EngineOp.clearAll := by
      intro he
      exact hmem (by rw [← he]; exact List.mem_cons_self op rest)
    have hrest : EngineOp.clearAll ∉ rest := by
      intro hc
      exact hmem (List.mem_cons_of_mem _ hc)
    exact ih (applyOp remote s op) hrest (applyOp_preserves_inv remote s op hop h)

/-- C3 counterexample: from the fresh offline state, one offline submit
followed by `clearCache()` leaves the engine idle with `pendingCount = 1`
while the queue is empty — `clearAll` wipes the store without telling the
hook's counter. -/
theorem pendingCount_clearAll_counterexample :
    (runOps (fun _ _ => true) (initialState false)
      [.submit "t" (.vStr "x") 0, .clearAll]).isSyncing = false ∧
    (runOps (fun _ _ => true) (initialState false)
      [.submit "t" (.vStr "x") 0, .clearAll]).pendingCount ≠
      (getOfflineQueue (runOps (fun _ _ => true) (initialState false)
        [.submit "t" (.vStr "x") 0, .clearAll]).db).length := by
  constructor <;> decide

/-- C3 amended: for every `clearAll`-free sequence of submit, drain and
connectivity operations from the fresh state, the engine ends idle with
`pendingCount` equal to the number of rows actually in the durable queue
(`listQueue().length`). -/
theorem pendingCount_idle_invariant (remote : RemoteOracle) (b : Bool)
    (ops : List EngineOp) (h : EngineOp.clearAll ∉ ops) :
    (runOps remote (initialState b) ops).isSyncing = false ∧
    (runOps remote (initialState b) ops).pendingCount =
      (getOfflineQueue (runOps remote (initialState b) ops).db).length := by
  have hinv : EngineInv (initialState b) :=
    ⟨rfl, rfl, fun i hi => absurd hi (List.not_mem_nil i), List.nodup_nil⟩
  obtain ⟨g1, g2, -, -⟩ := runOps_preserves_inv remote ops (initialState b) h hinv
  exact ⟨g2, g1⟩

/-- Witness for `pendingCount_idle_invariant`: one offline submit followed
by a drain trigger. -/
theorem pendingCount_idle_invariant_witness :
    EngineOp.clearAll ∉
      [EngineOp.submit "t" (.vStr "x") 0, EngineOp.drain] ∧
    ((runOps (fun _ _ => true) (initialState false)
        [EngineOp.submit "t" (.vStr "x") 0, EngineOp.drain]).isSyncing = false ∧
     (runOps (fun _ _ => true) (initialState false)
        [EngineOp.submit "t" (.vStr "x") 0, EngineOp.drain]).pendingCount =
      (getOfflineQueue (runOps (fun _ _ => true) (initialState false)
        [EngineOp.submit "t" (.vStr "x") 0, EngineOp.drain]).db).length) :=
  ⟨by simp, pendingCount_idle_invariant (fun _ _ => true) false
    [EngineOp.submit "t" (.vStr "x") 0, EngineOp.drain] (by simp)⟩
